import Mathlib

/-!
Verification of the product-card variant-selection / hover-preview state
machine and the catalog-loading route of the d-store storefront.

The definitions below are a shallow embedding of the two source files:
  * `src/app/components/ProductCard.tsx`
  * `src/app/routes/_index.tsx`
JavaScript strings become `String`, nullable values become `Option`,
`Math.random()` becomes an explicit coin stream `Nat → Bool`, and the
React component's three `useState` cells become the `CardState` record.
-/

namespace DStore

/-- `MoneyV2` as selected by the GraphQL fragment: amount and currency. -/
structure Pricing where
  amount : String
  currencyCode : String
deriving DecidableEq, Repr

/-- One `selectedOptions` entry of a variant: a name/value pair. -/
structure SelectedOption where
  name : String
  value : String
deriving DecidableEq, Repr

/-- The image reference carried by a variant (`image { url ... }`). -/
structure ImageRef where
  url : String
deriving DecidableEq, Repr

/-- A product variant, with the fields requested by `ProductVariant`
fragment in `_index.tsx` that the card logic reads. -/
structure Variant where
  id : String
  title : String
  price : Pricing
  compareAtPrice : Option Pricing
  selectedOptions : List SelectedOption
  image : Option ImageRef
  sku : String
  availableForSale : Bool
deriving DecidableEq, Repr

/-- A product as consumed by `ProductCard`: the flattened
`variants.edges[].node` list plus the backend-designated
`selectedOrFirstAvailableVariant` signal. -/
structure Product where
  id : String
  title : String
  vendor : String
  handle : String
  variants : List Variant
  selectedOrFirstAvailableVariant : Option Variant
deriving DecidableEq, Repr

/-- The three `useState` cells of `ProductCard`:
`selectedVariant`, `hoverVariant`, `isHovering`. -/
structure CardState where
  selectedVariant : Variant
  hoverVariant : Option Variant
  isHovering : Bool
deriving DecidableEq, Repr

/-- The synthetic compare-at price attached by `addFakeSaleOnSomeProducts`:
`{amount: '300.0', currencyCode: 'CAD'}`. -/
def fakeSalePrice : Pricing := { amount := "300.0", currencyCode := "CAD" }

/-- Helper for `addFakeSaleOnSomeProducts`: maps over the variants,
consuming one coin per variant (coin `i` models the `Math.random() < 0.5`
draw for the variant at position `i`). -/
def addFakeSaleAux (coins : Nat → Bool) : Nat → List Variant → List Variant
  | _, [] => []
  | i, v :: vs =>
      (if coins i then { v with compareAtPrice := some fakeSalePrice } else v)
        :: addFakeSaleAux coins (i + 1) vs

/-- `addFakeSaleOnSomeProducts` from `ProductCard.tsx`: per variant, with
probability 1/2 (here: when the variant's coin is true) replace
`compareAtPrice` by the fake sale price via object spread, otherwise
return the variant unchanged. -/
def addFakeSaleOnSomeProducts (coins : Nat → Bool) (variants : List Variant) :
    List Variant :=
  addFakeSaleAux coins 0 variants

/-- Card-state initialisation: `useState(variants[0])`, `useState(null)`,
`useState(false)`. An empty variant list (out of contract) gives `none`,
modelling `variants[0]` being `undefined`. -/
def initCardState (variants : List Variant) : Option CardState :=
  match variants.head? with
  | some v => some { selectedVariant := v, hoverVariant := none, isHovering := false }
  | none => none

/-- Initialisation from a product, as the component does: the state cells
are seeded from the variant list only; `selectedOrFirstAvailableVariant`
is not consulted for the card state (it only feeds `getProductOptions`). -/
def initFromProduct (p : Product) : Option CardState :=
  initCardState p.variants

/-- The variant whose image the card shows:
`(hoverVariant || selectedVariant)` from the `Image` render. -/
def displayedVariant (s : CardState) : Variant :=
  match s.hoverVariant with
  | some h => h
  | none => s.selectedVariant

/-- `displayedImage`: the `Image` element renders
`data={(hoverVariant || selectedVariant).image}`. -/
def displayedImage (s : CardState) : Option ImageRef :=
  (displayedVariant s).image

/-- `displayedPrice`: the `Price` element receives
`actualPrice={selectedVariant.price}` and
`compareAtPrice={selectedVariant.compareAtPrice}`. -/
def displayedPrice (s : CardState) : Pricing × Option Pricing :=
  (s.selectedVariant.price, s.selectedVariant.compareAtPrice)

/-- The sale badge: rendered exactly when `selectedVariant.compareAtPrice`
is truthy (`{selectedVariant.compareAtPrice && <div>On Sale!</div>}`). -/
def saleBadgeShown (s : CardState) : Bool :=
  s.selectedVariant.compareAtPrice.isSome

/-- ASCII lowering of one character, as JavaScript `toLowerCase` acts on
the ASCII range (option names and colour values are ASCII here). -/
def lowerChar (c : Char) : Char :=
  if 65 ≤ c.toNat ∧ c.toNat ≤ 90 then Char.ofNat (c.toNat + 32) else c

/-- JavaScript `String.prototype.toLowerCase`, restricted to ASCII. -/
def toLowerAscii (s : String) : String := String.mk (s.data.map lowerChar)

/-- The predicate inside `handleVariantClick`'s `variants.find`: some
selected option is named "color" (case-insensitive) with a value equal to
the clicked colour name (case-insensitive). -/
def matchesColor (colorName : String) (v : Variant) : Bool :=
  v.selectedOptions.any fun opt =>
    toLowerAscii opt.name == "color"
      && toLowerAscii opt.value == toLowerAscii colorName

/-- `handleVariantClick(colorName)`: find the first matching variant; if
found, select it and clear hover state; otherwise do nothing. -/
def handleVariantClick (variants : List Variant) (colorName : String)
    (s : CardState) : CardState :=
  match variants.find? (matchesColor colorName) with
  | some v => { selectedVariant := v, hoverVariant := none, isHovering := false }
  | none => s

/-- `handleMouseEnter`: `setIsHovering(true)`. -/
def handleMouseEnter (s : CardState) : CardState :=
  { s with isHovering := true }

/-- `handleMouseLeave`: `setIsHovering(false); setHoverVariant(null)`. -/
def handleMouseLeave (s : CardState) : CardState :=
  { s with isHovering := false, hoverVariant := none }

/-- JavaScript `Array.prototype.findIndex`: index of the first element
satisfying the predicate, `-1` when there is none. -/
def findIndexJs (p : Variant → Bool) (l : List Variant) : Int :=
  match l.findIdx? p with
  | some i => (i : Int)
  | none => -1

/-- The interval callback of the hover-cycle `useEffect`: compute the index
of the currently displayed variant (`hoverVariant` if set, else
`selectedVariant`) by id, and set `hoverVariant` to
`variants[(currentIndex + 1) % variants.length]`. -/
def tick (variants : List Variant) (s : CardState) : CardState :=
  let prevId :=
    match s.hoverVariant with
    | some h => h.id
    | none => s.selectedVariant.id
  let currentIndex := findIndexJs (fun v => v.id == prevId) variants
  { s with hoverVariant := variants.get? ((currentIndex + 1) % (variants.length : Int)).toNat }

/-! ## Timer lifecycle

The hover-cycle `useEffect` has dependency array
`[isHovering, selectedVariant, variants]`; React runs its cleanup
(`clearInterval`) before every re-run and on unmount, so at any moment the
effect holds at most the one interval it last registered.  `MountedCard`
pairs the card state with the number of live intervals, and `reconcile`
models one cleanup-then-setup pass of the effect: the previously
registered interval (if any) is cleared, and a new one is registered
exactly when the guard `isHovering && variants.length > 1` holds
(`if (!isHovering || variants.length <= 1) return;`). -/

/-- Card state together with the number of live cycling intervals. -/
structure MountedCard where
  card : CardState
  timerCount : Nat
deriving DecidableEq, Repr

/-- The effect guard: the interval is registered iff the card is hovered
and the product has more than one variant. -/
def timerShouldRun (variants : List Variant) (s : CardState) : Bool :=
  s.isHovering && decide (1 < variants.length)

/-- One cleanup-then-setup pass of the hover-cycle effect. -/
def reconcile (variants : List Variant) (m : MountedCard) : MountedCard :=
  { m with timerCount := if timerShouldRun variants m.card then 1 else 0 }

/-- The external triggers that can change a mounted card's state. -/
inductive Event where
  | enter
  | leave
  | click (colorName : String)
  | tickFire
deriving DecidableEq, Repr

/-- The state-cell update performed by each trigger. -/
def handleEvent (variants : List Variant) (e : Event) (s : CardState) :
    CardState :=
  match e with
  | .enter => handleMouseEnter s
  | .leave => handleMouseLeave s
  | .click c => handleVariantClick variants c s
  | .tickFire => tick variants s

/-- A full step: the trigger updates the state cells, then React re-runs
the effect (its dependencies include every cell a trigger can change). -/
def stepEvent (variants : List Variant) (m : MountedCard) (e : Event) :
    MountedCard :=
  reconcile variants { m with card := handleEvent variants e m.card }

/-- Mounting a card: the state cells are initialised and the effect runs
once after the first render. -/
def mount (variants : List Variant) (s : CardState) : MountedCard :=
  reconcile variants { card := s, timerCount := 0 }

/-- Unmounting: React runs the effect cleanup, clearing any live interval. -/
def unmount (m : MountedCard) : MountedCard :=
  { m with timerCount := 0 }

/-- The mounted-card states reachable from initialisation by triggers. -/
inductive Reachable (variants : List Variant) : MountedCard → Prop where
  | init (s : CardState) (h : initCardState variants = some s) :
      Reachable variants (mount variants s)
  | step (m : MountedCard) (e : Event) (h : Reachable variants m) :
      Reachable variants (stepEvent variants m e)

/-! ## Catalog loading (`_index.tsx`) -/

/-- `loadDeferredData`: the storefront query's promise with
`.catch((error) => \x7b console.error(error); return null; \x7d)` attached -
a rejection is logged and converted to a `null` result. -/
def loadDeferredData (r : Except String (List Product)) :
    Option (List Product) :=
  match r with
  | .ok ps => some ps
  | .error _ => none

/-- What the `RecommendedProducts` section renders under its heading.
`errorUI` is never produced by the source (there is no error branch in the
JSX); it is present so that its absence is statable. -/
inductive SectionBody where
  | loading
  | nothingRendered
  | errorUI (msg : String)
  | cards (ps : List Product)
deriving DecidableEq, Repr

/-- The `Suspense`/`Await` render of `RecommendedProducts`: `none` models
the promise still pending (the `Loading...` fallback shows); a resolved
`null` response hits `if (!response) return null;`; otherwise the grid of
product cards is rendered. -/
def renderRecommended (st : Option (Option (List Product))) : SectionBody :=
  match st with
  | none => .loading
  | some none => .nothingRendered
  | some (some ps) => .cards ps

/-- The product cards visible in a rendered section body. -/
def displayedCards : SectionBody → List Product
  | .loading => []
  | .nothingRendered => []
  | .errorUI _ => []
  | .cards ps => ps

/-- Whether a rendered section body is an error UI. -/
def isErrorUI : SectionBody → Bool
  | .errorUI _ => true
  | _ => false

/-! ## Concrete fixtures for witnesses and counterexamples -/

/-- A red variant: id 1, price 10, no compare-at price. -/
def varRed : Variant :=
  { id := "gid-1", title := "Red", price := { amount := "10.0", currencyCode := "CAD" },
    compareAtPrice := none,
    selectedOptions := [{ name := "Color", value := "Red" }],
    image := some { url := "red.png" }, sku := "SKU-R", availableForSale := true }

/-- A blue variant: id 2, price 12, compare-at price 8. -/
def varBlue : Variant :=
  { id := "gid-2", title := "Blue", price := { amount := "12.0", currencyCode := "CAD" },
    compareAtPrice := some { amount := "8.0", currencyCode := "CAD" },
    selectedOptions := [{ name := "Color", value := "Blue" }],
    image := some { url := "blue.png" }, sku := "SKU-B", availableForSale := true }

/-- A green variant: id 3, price 15, no compare-at price. -/
def varGreen : Variant :=
  { id := "gid-3", title := "Green", price := { amount := "15.0", currencyCode := "CAD" },
    compareAtPrice := none,
    selectedOptions := [{ name := "Color", value := "Green" }],
    image := some { url := "green.png" }, sku := "SKU-G", availableForSale := true }

/-- A two-variant product whose backend-designated first-available variant
is the second variant. -/
def prodTwo : Product :=
  { id := "prod-1", title := "Shirt", vendor := "Acme", handle := "shirt",
    variants := [varRed, varBlue],
    selectedOrFirstAvailableVariant := some varBlue }

/-- Fixture card state with an active hover preview: red selected, blue
hover-previewed. -/
def stHover : CardState :=
  { selectedVariant := varRed, hoverVariant := some varBlue, isHovering := true }

/-- Fixture card state at the start of a hover cycle: red selected, no
hover variant yet, pointer over the card. -/
def stStart : CardState :=
  { selectedVariant := varRed, hoverVariant := none, isHovering := true }

/-- Fixture three-variant list with pairwise distinct ids. -/
def fixtureVariants : List Variant := [varRed, varBlue, varGreen]

/-- The per-variant effect of `addFakeSaleOnSomeProducts`: every field
other than `compareAtPrice` is unchanged, and `compareAtPrice` is either
unchanged or replaced by exactly the fake sale price. -/
def fakeSaleRel (v w : Variant) : Prop :=
  w.id = v.id ∧ w.title = v.title ∧ w.price = v.price ∧
  w.selectedOptions = v.selectedOptions ∧ w.image = v.image ∧
  w.sku = v.sku ∧ w.availableForSale = v.availableForSale ∧
  (w.compareAtPrice = v.compareAtPrice ∨ w.compareAtPrice = some fakeSalePrice)

/-! ## Helper lemmas -/

/-- `findIdx?` with an explicit start accumulator: when the keys of `l` are
pairwise distinct, searching for the key of the element at position `i`
finds exactly position `i` (offset by the accumulator). -/
lemma findIdx?_go_map_nodup {α : Type} (f : α → String) :
    ∀ (l : List α), (l.map f).Nodup → ∀ i (hi : i < l.length) (start : Nat),
      l.findIdx? (fun v => f v == f (l.get ⟨i, hi⟩)) start = some (start + i) := by
  intro l
  induction l with
  | nil => intro _ i hi; simp at hi
  | cons w vs ih =>
    intro hnd i hi start
    rw [List.map_cons, List.nodup_cons] at hnd
    match i with
    | 0 => simp [List.findIdx?_cons]
    | (j+1) =>
      have hj : j < vs.length := by simpa using hi
      have hget : (w :: vs).get ⟨j+1, hi⟩ = vs.get ⟨j, hj⟩ := rfl
      rw [hget]
      have hmem : f (vs.get ⟨j, hj⟩) ∈ vs.map f :=
        List.mem_map_of_mem f (vs.get_mem j hj)
      have hne : (f w == f (vs.get ⟨j, hj⟩)) = false := by
        rw [beq_eq_false_iff_ne]
        intro he
        exact hnd.1 (he ▸ hmem)
      rw [List.findIdx?_cons, hne]
      simp only [Bool.false_eq_true, if_false, ih hnd.2 j hj (start + 1)]
      congr 1
      omega

/-- With pairwise distinct keys, `findIdx?` locates the element at
position `i` exactly at `i`. -/
lemma findIdx?_map_nodup {α : Type} (f : α → String)
    (l : List α) (hnd : (l.map f).Nodup) (i : Nat) (hi : i < l.length) :
    l.findIdx? (fun v => f v == f (l.get ⟨i, hi⟩)) = some i := by
  simpa using findIdx?_go_map_nodup f l hnd i hi 0

/-- The id the tick callback searches for is the displayed variant's id. -/
lemma tick_prevId (s : CardState) :
    (match s.hoverVariant with
     | some h => h.id
     | none => s.selectedVariant.id) = (displayedVariant s).id := by
  rcases s with ⟨sel, hov, hb⟩
  cases hov <;> rfl

/-- A card with a hover variant displays that hover variant. -/
lemma displayedVariant_of_hover (s : CardState) (h : Variant)
    (hh : s.hoverVariant = some h) : displayedVariant s = h := by
  simp [displayedVariant, hh]

/-- One tick from a state whose displayed variant sits at position `i` of
a duplicate-free variant list: `hoverVariant` becomes the variant at
position `(i + 1) % length`, and the other two cells are untouched. -/
lemma tick_at_index (variants : List Variant) (s : CardState)
    (hnd : (variants.map Variant.id).Nodup)
    (i : Nat) (hi : i < variants.length)
    (hdisp : displayedVariant s = variants.get ⟨i, hi⟩) :
    (tick variants s).hoverVariant = variants.get? ((i + 1) % variants.length) ∧
    (tick variants s).selectedVariant = s.selectedVariant ∧
    (tick variants s).isHovering = s.isHovering := by
  have hlen : 0 < variants.length := Nat.lt_of_le_of_lt (Nat.zero_le i) hi
  have hfind :
      findIndexJs (fun v => v.id == (displayedVariant s).id) variants = (i : Int) := by
    rw [findIndexJs, hdisp]
    rw [findIdx?_map_nodup Variant.id variants hnd i hi]
  have hmod : (((i : Int) + 1) % (variants.length : Int)).toNat
      = (i + 1) % variants.length := by
    have h1 : ((i : Int) + 1) % (variants.length : Int)
        = (((i + 1) % variants.length : Nat) : Int) := by
      push_cast
      ring
    rw [h1, Int.toNat_natCast]
  refine ⟨?_, rfl, rfl⟩
  show variants.get?
      ((findIndexJs (fun v => v.id == (match s.hoverVariant with
        | some h => h.id
        | none => s.selectedVariant.id)) variants + 1)
        % (variants.length : Int)).toNat
      = variants.get? ((i + 1) % variants.length)
  rw [tick_prevId, hfind, hmod]

/-! ## Claim theorems -/

/-- C2: while hovering over a product with at least two variants (listed
with pairwise distinct ids, as variant ids are identities), if the variant
displayed when hovering began sits at position `start_index` of the
variant list, then after `k` ticks the displayed variant is
`variants[(start_index + k) % N]`; moreover a single tick advances
`hoverVariant` to the next variant, wrapping modulo the list length. -/
theorem hover_cycle_mod (variants : List Variant) (s : CardState)
    (hN : 2 ≤ variants.length)
    (hnd : (variants.map Variant.id).Nodup)
    (hhover : s.isHovering = true)
    (i0 : Nat) (hi0 : i0 < variants.length)
    (hdisp : displayedVariant s = variants.get ⟨i0, hi0⟩) :
    (∀ k : Nat, variants.get? ((i0 + k) % variants.length)
        = some (displayedVariant ((tick variants)^[k] s)))
    ∧ (tick variants s).hoverVariant
        = variants.get? ((i0 + 1) % variants.length) := by
  have hlen : 0 < variants.length := by omega
  have main : ∀ k, displayedVariant ((tick variants)^[k] s)
      = variants.get ⟨(i0 + k) % variants.length, Nat.mod_lt _ hlen⟩ := by
    intro k
    induction k with
    | zero =>
        have h0 : i0 = (i0 + 0) % variants.length := by
          simpa using (Nat.mod_eq_of_lt hi0).symm
        simp only [Function.iterate_zero, id_eq]
        exact hdisp.trans (by congr 1; exact Fin.ext h0)
    | succ k ihk =>
        have hjk : (i0 + k) % variants.length < variants.length :=
          Nat.mod_lt _ hlen
        have step := tick_at_index variants ((tick variants)^[k] s) hnd _ hjk ihk
        have hjk1 : ((i0 + k) % variants.length + 1) % variants.length
            < variants.length := Nat.mod_lt _ hlen
        have hnext : ((i0 + k) % variants.length + 1) % variants.length
            = (i0 + (k + 1)) % variants.length := by
          conv_rhs => rw [show i0 + (k + 1) = (i0 + k) + 1 from by ring]
          rw [Nat.add_mod (i0 + k) 1, Nat.mod_eq_of_lt (show 1 < variants.length from hN)]
        have hhov : (tick variants ((tick variants)^[k] s)).hoverVariant
            = some (variants.get ⟨((i0 + k) % variants.length + 1) % variants.length, hjk1⟩) := by
          rw [step.1, List.get?_eq_get hjk1]
        rw [Function.iterate_succ_apply']
        rw [displayedVariant_of_hover _ _ hhov]
        simp [hnext]
  refine ⟨?_, ?_⟩
  · intro k
    rw [main k, List.get?_eq_get (Nat.mod_lt _ hlen)]
  · exact (tick_at_index variants s hnd i0 hi0 hdisp).1

/-- Witness for C2: for a three-variant product with red displayed at
start, after four ticks the displayed variant is at position
`(0 + 4) % 3 = 1` (blue). -/
theorem hover_cycle_mod_witness :
    fixtureVariants.get? ((0 + 4) % fixtureVariants.length)
      = some (displayedVariant ((tick fixtureVariants)^[4] stStart)) :=
  (hover_cycle_mod fixtureVariants stStart (by decide) (by decide) rfl 0
    (by decide) rfl).1 4

/-- C1 counterexample: in a state hover-previewing blue (on sale, price
12) over selected red (price 10), the rendered price pair is red's, not
the displayed (hover) variant's — the claim that `displayedPrice` resolves
from `hoverVariant || selectedVariant` is false. -/
theorem price_ignores_hover_counterexample :
    stHover.hoverVariant = some varBlue ∧
    displayedPrice stHover
      ≠ ((displayedVariant stHover).price, (displayedVariant stHover).compareAtPrice) := by
  refine ⟨rfl, ?_⟩
  decide

/-- C1 (amended): `displayedImage` resolves from `hoverVariant` when
present, else from `selectedVariant`; `displayedPrice` always resolves
from `selectedVariant`, even while a hover preview is active. -/
theorem display_resolution (s : CardState) :
    (∀ h : Variant, s.hoverVariant = some h → displayedImage s = h.image) ∧
    (s.hoverVariant = none → displayedImage s = s.selectedVariant.image) ∧
    displayedPrice s = (s.selectedVariant.price, s.selectedVariant.compareAtPrice) := by
  refine ⟨?_, ?_, rfl⟩
  · intro h hh
    unfold displayedImage displayedVariant
    rw [hh]
  · intro hh
    unfold displayedImage displayedVariant
    rw [hh]

/-- Witness for C1 (amended): with blue hover-previewed over selected red,
the image shown is blue's and the price shown is red's. -/
theorem display_resolution_witness :
    displayedImage stHover = varBlue.image ∧
    displayedImage stStart = stStart.selectedVariant.image ∧
    displayedPrice stHover = (varRed.price, varRed.compareAtPrice) :=
  ⟨(display_resolution stHover).1 varBlue rfl,
   (display_resolution stStart).2.1 rfl,
   (display_resolution stHover).2.2⟩

/-- `find?` over a split list whose prefix has no match and whose first
suffix element matches returns that element. -/
lemma find?_first_match (c : String) (v : Variant) :
    ∀ (l₁ l₂ : List Variant), matchesColor c v = true →
      (∀ w ∈ l₁, matchesColor c w = false) →
      (l₁ ++ v :: l₂).find? (matchesColor c) = some v := by
  intro l₁
  induction l₁ with
  | nil =>
      intro l₂ hv _
      simpa [List.find?_cons] using List.find?_cons_of_pos l₂ hv
  | cons w l₁ ih =>
      intro l₂ hv hall
      have hw : matchesColor c w = false := hall w (by simp)
      rw [List.cons_append, List.find?_cons_of_neg _ (by simp [hw])]
      exact ih l₂ hv (fun x hx => hall x (by simp [hx]))

/-- C3: clicking a colour name that matches some variant's colour option
(case-insensitively) selects the first matching variant in list order,
clears `hoverVariant` and forces `isHovering` false. -/
theorem select_first_color_match (l₁ l₂ : List Variant) (v : Variant)
    (c : String) (s : CardState)
    (hv : matchesColor c v = true)
    (hall : ∀ w ∈ l₁, matchesColor c w = false) :
    handleVariantClick (l₁ ++ v :: l₂) c s
      = { selectedVariant := v, hoverVariant := none, isHovering := false } := by
  unfold handleVariantClick
  rw [find?_first_match c v l₁ l₂ hv hall]

/-- Witness for C3: clicking "BLUE" (case-insensitive) while red is
selected and a hover cycle is active selects blue and ends the hover. -/
theorem select_first_color_match_witness :
    handleVariantClick ([varRed] ++ varBlue :: [varGreen]) "BLUE" stHover
      = { selectedVariant := varBlue, hoverVariant := none, isHovering := false } :=
  select_first_color_match [varRed] [varGreen] varBlue "BLUE" stHover
    (by decide) (by decide)

/-- C4: clicking a colour name matching no variant leaves the card state
unchanged (the click is a silent no-op), and clicking it twice likewise
returns the initial state. -/
theorem unmatched_click_noop (variants : List Variant) (c : String)
    (s : CardState)
    (hall : ∀ w ∈ variants, matchesColor c w = false) :
    handleVariantClick variants c s = s ∧
    handleVariantClick variants c (handleVariantClick variants c s) = s := by
  have hfind : variants.find? (matchesColor c) = none :=
    List.find?_eq_none.mpr (fun x hx => by simp [hall x hx])
  have hone : handleVariantClick variants c s = s := by
    unfold handleVariantClick
    rw [hfind]
  exact ⟨hone, by rw [hone, hone]⟩

/-- Witness for C4: "purple" matches no fixture variant; the click leaves
the hovering state untouched, twice over. -/
theorem unmatched_click_noop_witness :
    handleVariantClick fixtureVariants "purple" stHover = stHover ∧
    handleVariantClick fixtureVariants "purple"
      (handleVariantClick fixtureVariants "purple" stHover) = stHover :=
  unmatched_click_noop fixtureVariants "purple" stHover (by decide)

/-- C5: sale-badge visibility depends only on `selectedVariant`: two
states agreeing on `selectedVariant` (with arbitrary `hoverVariant` and
`isHovering`) show the badge identically, and the badge shows exactly when
`selectedVariant` carries a compare-at price. -/
theorem sale_badge_selected_only (s₁ s₂ : CardState)
    (hsel : s₁.selectedVariant = s₂.selectedVariant) :
    saleBadgeShown s₁ = saleBadgeShown s₂ ∧
    (saleBadgeShown s₁ = true ↔ s₁.selectedVariant.compareAtPrice.isSome = true) := by
  constructor
  · unfold saleBadgeShown
    rw [hsel]
  · exact Iff.rfl

/-- Witness for C5: red selected in both states; hover-previewing the
on-sale blue variant does not make the badge appear. -/
theorem sale_badge_selected_only_witness :
    saleBadgeShown stHover = saleBadgeShown (handleMouseLeave stStart) ∧
    (saleBadgeShown stHover = true
        ↔ stHover.selectedVariant.compareAtPrice.isSome = true) :=
  sale_badge_selected_only stHover (handleMouseLeave stStart) rfl

/-- C6: pointer-leave sets `isHovering` false and clears `hoverVariant`,
so the displayed image reverts to `selectedVariant`'s image;
`selectedVariant` itself is untouched. -/
theorem mouse_leave_reverts (s : CardState) :
    (handleMouseLeave s).isHovering = false ∧
    (handleMouseLeave s).hoverVariant = none ∧
    displayedImage (handleMouseLeave s) = s.selectedVariant.image ∧
    (handleMouseLeave s).selectedVariant = s.selectedVariant :=
  ⟨rfl, rfl, rfl, rfl⟩

/-- C7 counterexample: for a product whose backend-designated
first-available variant is blue (the second variant), initialisation still
selects red (the first in list order) — the backend signal is not
consulted for the card state, refuting the claim's parenthetical. -/
theorem init_backend_signal_counterexample :
    prodTwo.selectedOrFirstAvailableVariant = some varBlue ∧
    (initFromProduct prodTwo).map CardState.selectedVariant = some varRed ∧
    varRed ≠ varBlue := by
  refine ⟨rfl, rfl, ?_⟩
  decide

/-- C7 (amended): for every product with at least one variant, the initial
card state has `selectedVariant` equal to the first variant in list order
(the backend first-available signal is never consulted for state
initialisation), `hoverVariant` absent, and `isHovering` false. -/
theorem init_first_variant (p : Product) (v : Variant) (vs : List Variant)
    (hv : p.variants = v :: vs) :
    initFromProduct p
      = some { selectedVariant := v, hoverVariant := none, isHovering := false } := by
  unfold initFromProduct initCardState
  rw [hv]
  rfl

/-- Witness for C7 (amended): the two-variant fixture product initialises
to red selected, no hover, not hovering. -/
theorem init_first_variant_witness :
    initFromProduct prodTwo
      = some { selectedVariant := varRed, hoverVariant := none, isHovering := false } :=
  init_first_variant prodTwo varRed [varBlue] rfl

/-- C8: in every reachable mounted-card state at most one cycling timer
is live, a timer is live iff `isHovering` is true and the product has more
than one variant (so a single-variant product never has a timer — the
guard is checked at establishment time), a non-hovering card has no
timer, and unmounting clears any pending timer. -/
theorem timer_lifecycle (variants : List Variant) (m : MountedCard)
    (h : Reachable variants m) :
    m.timerCount ≤ 1 ∧
    (m.timerCount = 1 ↔ (m.card.isHovering = true ∧ 1 < variants.length)) ∧
    (variants.length ≤ 1 → m.timerCount = 0) ∧
    (m.card.isHovering = false → m.timerCount = 0) ∧
    (unmount m).timerCount = 0 := by
  have key : m.timerCount = if timerShouldRun variants m.card then 1 else 0 := by
    induction h with
    | init s hs => rfl
    | step m' e h' ih => rfl
  have hiff : timerShouldRun variants m.card = true
      ↔ (m.card.isHovering = true ∧ 1 < variants.length) := by
    simp [timerShouldRun]
  cases hb : timerShouldRun variants m.card with
  | false =>
      rw [hb] at key
      simp at key
      refine ⟨by omega, ?_, fun _ => key, fun _ => key, rfl⟩
      rw [key]
      constructor
      · intro h01
        exact absurd h01 (by omega)
      · intro hc
        exact absurd (hiff.mpr hc) (by simp [hb])
  | true =>
      rw [hb] at key
      simp at key
      obtain ⟨hh, hlen⟩ := hiff.mp hb
      refine ⟨by omega, ?_, ?_, ?_, rfl⟩
      · rw [key]
        exact ⟨fun _ => ⟨hh, hlen⟩, fun _ => rfl⟩
      · intro hle
        exact absurd hlen (by omega)
      · intro hf
        rw [hf] at hh
        exact absurd hh (by simp)

/-- Witness for C8: mounting the three-variant fixture and moving the
pointer onto the card reaches a state where the timer invariant holds. -/
theorem timer_lifecycle_witness :
    (stepEvent fixtureVariants
        (mount fixtureVariants
          { selectedVariant := varRed, hoverVariant := none, isHovering := false })
        Event.enter).timerCount ≤ 1 ∧
    ((stepEvent fixtureVariants
        (mount fixtureVariants
          { selectedVariant := varRed, hoverVariant := none, isHovering := false })
        Event.enter).timerCount = 1 ↔
      ((stepEvent fixtureVariants
        (mount fixtureVariants
          { selectedVariant := varRed, hoverVariant := none, isHovering := false })
        Event.enter).card.isHovering = true ∧ 1 < fixtureVariants.length)) ∧
    (fixtureVariants.length ≤ 1 →
      (stepEvent fixtureVariants
        (mount fixtureVariants
          { selectedVariant := varRed, hoverVariant := none, isHovering := false })
        Event.enter).timerCount = 0) ∧
    ((stepEvent fixtureVariants
        (mount fixtureVariants
          { selectedVariant := varRed, hoverVariant := none, isHovering := false })
        Event.enter).card.isHovering = false →
      (stepEvent fixtureVariants
        (mount fixtureVariants
          { selectedVariant := varRed, hoverVariant := none, isHovering := false })
        Event.enter).timerCount = 0) ∧
    (unmount (stepEvent fixtureVariants
        (mount fixtureVariants
          { selectedVariant := varRed, hoverVariant := none, isHovering := false })
        Event.enter)).timerCount = 0 :=
  timer_lifecycle fixtureVariants _
    (Reachable.step _ Event.enter
      (Reachable.init
        { selectedVariant := varRed, hoverVariant := none, isHovering := false } rfl))

/-- C9: a rejected catalog fetch is converted to a null result; a null
result renders nothing under the heading (and shows no product cards), a
pending fetch shows the loading placeholder, an empty resolved catalog
shows no product cards, and no fetch state ever renders an error UI. -/
theorem catalog_fetch_degrades (e : String) :
    loadDeferredData (Except.error e) = none ∧
    renderRecommended (some (loadDeferredData (Except.error e)))
      = SectionBody.nothingRendered ∧
    renderRecommended none = SectionBody.loading ∧
    displayedCards (renderRecommended (some (some []))) = [] ∧
    (∀ st : Option (Option (List Product)),
      isErrorUI (renderRecommended st) = false) := by
  refine ⟨rfl, rfl, rfl, rfl, ?_⟩
  intro st
  rcases st with _ | st
  · rfl
  · rcases st with _ | ps <;> rfl

/-- `addFakeSaleAux` relates input and output pointwise by `fakeSaleRel`,
for any starting coin index. -/
lemma addFakeSaleAux_forall₂ (coins : Nat → Bool) :
    ∀ (vs : List Variant) (i : Nat),
      List.Forall₂ fakeSaleRel vs (addFakeSaleAux coins i vs) := by
  intro vs
  induction vs with
  | nil => intro i; exact List.Forall₂.nil
  | cons v vs ih =>
      intro i
      refine List.Forall₂.cons ?_ (ih (i + 1))
      by_cases hc : coins i = true
      · simp [fakeSaleRel, hc]
      · simp [fakeSaleRel, hc]

/-- C10: `addFakeSaleOnSomeProducts` preserves length and order, leaves
every field of every variant other than `compareAtPrice` unchanged, and
either keeps each variant's `compareAtPrice` or replaces it by exactly
`{amount: '300.0', currencyCode: 'CAD'}`. -/
theorem addFakeSale_preserves_frame (coins : Nat → Bool)
    (variants : List Variant) :
    (addFakeSaleOnSomeProducts coins variants).length = variants.length ∧
    List.Forall₂ fakeSaleRel variants (addFakeSaleOnSomeProducts coins variants) := by
  have h := addFakeSaleAux_forall₂ coins variants 0
  exact ⟨h.length_eq.symm, h⟩

end DStore
